import Mathlib

/-!
Shallow embedding of `timebasedcv/timebasedsplit.py` (class `_CoreTimeBasedSplit`
and its methods `_splits_from_period` and `n_splits_of`).

Timestamps (`DateTimeLike`) are modelled as `Int` values counting microseconds,
and `datetime.timedelta` values as `Int` microsecond counts: Python `timedelta`
arithmetic and comparisons on fixed-length units (days, hours, ..., weeks) are
exact integer arithmetic on microseconds.  Raising `ValueError` is modelled with
`Except String`.  The `while` loop of `_splits_from_period` is a well-founded
recursion; its termination needs `stride ≠ 0`, which the class validation
(`stride ≥ 1`) guarantees, so the loop carries that fact as a hypothesis.
-/

namespace Timebasedcv

/-- The closed set of valid `frequency` values (`FrequencyUnit` in the source). -/
inductive FrequencyUnit where
  | days
  | seconds
  | microseconds
  | milliseconds
  | minutes
  | hours
  | weeks
deriving DecidableEq, Repr

/-- Length in microseconds of one unit of the given frequency, i.e. the value of
`timedelta(**{frequency: 1})` in microseconds. -/
def FrequencyUnit.micros : FrequencyUnit → Int
  | .days => 86400000000
  | .seconds => 1000000
  | .microseconds => 1
  | .milliseconds => 1000
  | .minutes => 60000000
  | .hours => 3600000000
  | .weeks => 604800000000

lemma FrequencyUnit.micros_pos (f : FrequencyUnit) : 0 < f.micros := by
  cases f <;> decide

/-- The `window` argument: one of `"rolling"`, `"expanding"`. -/
inductive WindowType where
  | rolling
  | expanding
deriving DecidableEq, Repr

/-- The `mode` argument: one of `"forward"`, `"backward"`. -/
inductive ModeType where
  | forward
  | backward
deriving DecidableEq, Repr

/-- `SplitState` (from `timebasedcv/splitstate.py`): the four boundaries of one
split, each a timestamp in microseconds. -/
structure SplitState where
  train_start : Int
  train_end : Int
  forecast_start : Int
  forecast_end : Int
deriving DecidableEq, Repr

/-- The attributes of a `_CoreTimeBasedSplit` instance after `__init__` has run:
`stride` already holds the defaulted value `stride or forecast_horizon`. -/
structure CoreTimeBasedSplit where
  frequency : FrequencyUnit
  train_size : Int
  forecast_horizon : Int
  gap : Int
  stride : Int
  window : WindowType
  mode : ModeType
deriving DecidableEq, Repr

/-- `_CoreTimeBasedSplit.__init__`: stores the arguments, replacing a missing or
zero (falsy) `stride` with `forecast_horizon` (`self.stride_ = stride or
forecast_horizon`). -/
def mkCoreTimeBasedSplit (frequency : FrequencyUnit) (train_size forecast_horizon gap : Int)
    (stride : Option Int) (window : WindowType) (mode : ModeType) : CoreTimeBasedSplit :=
  { frequency := frequency
    train_size := train_size
    forecast_horizon := forecast_horizon
    gap := gap
    stride :=
      match stride with
      | none => forecast_horizon
      | some s => if s = 0 then forecast_horizon else s
    window := window
    mode := mode }

/-- `_CoreTimeBasedSplit._validate_arguments`: the numeric lower bounds
`(train_size, forecast_horizon, gap, stride) ≥ (1, 1, 0, 1)`.  Membership of
`frequency`, `window` and `mode` in their closed sets holds by construction of
the enumeration types. -/
def CoreTimeBasedSplit.validArguments (c : CoreTimeBasedSplit) : Prop :=
  1 ≤ c.train_size ∧ 1 ≤ c.forecast_horizon ∧ 0 ≤ c.gap ∧ 1 ≤ c.stride

instance (c : CoreTimeBasedSplit) : Decidable c.validArguments := by
  unfold CoreTimeBasedSplit.validArguments; infer_instance

/-- `train_delta`: `timedelta(**{frequency: train_size})` in microseconds. -/
def CoreTimeBasedSplit.train_delta (c : CoreTimeBasedSplit) : Int :=
  c.train_size * c.frequency.micros

/-- `forecast_delta`: `timedelta(**{frequency: forecast_horizon})` in microseconds. -/
def CoreTimeBasedSplit.forecast_delta (c : CoreTimeBasedSplit) : Int :=
  c.forecast_horizon * c.frequency.micros

/-- `gap_delta`: `timedelta(**{frequency: gap})` in microseconds. -/
def CoreTimeBasedSplit.gap_delta (c : CoreTimeBasedSplit) : Int :=
  c.gap * c.frequency.micros

/-- `stride_delta`: `timedelta(**{frequency: stride})` in microseconds. -/
def CoreTimeBasedSplit.stride_delta (c : CoreTimeBasedSplit) : Int :=
  c.stride * c.frequency.micros

lemma CoreTimeBasedSplit.stride_delta_ne_zero (c : CoreTimeBasedSplit)
    (hc : c.stride ≠ 0) : c.stride_delta ≠ 0 :=
  mul_ne_zero hc (c.frequency.micros_pos).ne'

lemma CoreTimeBasedSplit.stride_delta_pos (c : CoreTimeBasedSplit)
    (hc : 1 ≤ c.stride) : 0 < c.stride_delta :=
  mul_pos (by omega) c.frequency.micros_pos

/-- The body of the `while` loop of `_splits_from_period`: given the current
`SplitState`, the next one.  `train_start` advances only for a rolling window
(`train_start = train_start + stride_delta if window == "rolling" else
train_start`); the other three fields always advance by `stride_delta`. -/
def stepState (window : WindowType) (stride_delta : Int) (st : SplitState) : SplitState :=
  { train_start :=
      if window = WindowType.rolling then st.train_start + stride_delta else st.train_start
    train_end := st.train_end + stride_delta
    forecast_start := st.forecast_start + stride_delta
    forecast_end := st.forecast_end + stride_delta }

/-- The state reached after `n` iterations of the loop body. -/
def iterState (window : WindowType) (stride_delta : Int) : Nat → SplitState → SplitState
  | 0, st => st
  | n + 1, st => iterState window stride_delta n (stepState window stride_delta st)

/-- The `while` loop of `_splits_from_period`, collecting the yielded states:
`while (forecast_start <= time_end) and (train_start >= time_start) and
(train_start <= train_end + train_delta): yield SplitState(...)` followed by the
state update.  `train_delta` and `stride_delta` are the (signed) values that the
method computed before the loop, so they are negated in backward mode.
Termination relies on `stride_delta ≠ 0`. -/
def splitsLoop (time_start time_end train_delta stride_delta : Int) (window : WindowType)
    (hs : stride_delta ≠ 0) (st : SplitState) : List SplitState :=
  if h : st.forecast_start ≤ time_end ∧ time_start ≤ st.train_start ∧
      st.train_start ≤ st.train_end + train_delta then
    st :: splitsLoop time_start time_end train_delta stride_delta window hs
      (stepState window stride_delta st)
  else []
termination_by
  if 0 < stride_delta then (time_end + 1 - st.forecast_start).toNat
  else if window = WindowType.rolling then (st.train_start + 1 - time_start).toNat
  else (st.train_end + train_delta + 1 - st.train_start).toNat
decreasing_by
  obtain ⟨h1, h2, h3⟩ := h
  unfold stepState
  dsimp only
  split_ifs <;> omega

/-- The initial `SplitState` that `_splits_from_period` computes in forward
mode: `train_start = time_start; train_end = time_start + train_delta;
forecast_start = train_end + gap_delta; forecast_end = forecast_start +
forecast_delta`. -/
def forwardInit (c : CoreTimeBasedSplit) (time_start : Int) : SplitState :=
  let train_start := time_start
  let train_end := time_start + c.train_delta
  let forecast_start := train_end + c.gap_delta
  let forecast_end := forecast_start + c.forecast_delta
  ⟨train_start, train_end, forecast_start, forecast_end⟩

/-- The initial `SplitState` that `_splits_from_period` computes in backward
mode, where the deltas have been negated: `forecast_end = time_end;
forecast_start = forecast_end + forecast_delta; train_end = forecast_start +
gap_delta; train_start = train_end + train_delta if window == "rolling" else
time_start`. -/
def backwardInit (c : CoreTimeBasedSplit) (time_start time_end : Int) : SplitState :=
  let forecast_end := time_end
  let forecast_start := forecast_end + -c.forecast_delta
  let train_end := forecast_start + -c.gap_delta
  let train_start :=
    if c.window = WindowType.rolling then train_end + -c.train_delta else time_start
  ⟨train_start, train_end, forecast_start, forecast_end⟩

/-- `_CoreTimeBasedSplit._splits_from_period(time_start, time_end)`: raises
(returns `.error`) when `time_start >= time_end`; otherwise runs the loop from
the mode-dependent initial state with the mode-dependent signed deltas, and the
list of yielded `SplitState` values is returned in yield order. -/
def CoreTimeBasedSplit.splits_from_period (c : CoreTimeBasedSplit) (hc : c.stride ≠ 0)
    (time_start time_end : Int) : Except String (List SplitState) :=
  if time_start ≥ time_end then
    .error "`time_start` must be before `time_end`."
  else if c.mode = ModeType.forward then
    .ok (splitsLoop time_start time_end c.train_delta c.stride_delta c.window
      (c.stride_delta_ne_zero hc) (forwardInit c time_start))
  else
    .ok (splitsLoop time_start time_end (-c.train_delta) (-c.stride_delta) c.window
      (neg_ne_zero.mpr (c.stride_delta_ne_zero hc)) (backwardInit c time_start time_end))

/-- `_CoreTimeBasedSplit.n_splits_of(start_dt=..., end_dt=...)` (the branch
where both bounds are provided): raises when `start_dt >= end_dt`, otherwise
returns `len(tuple(self._splits_from_period(start_dt, end_dt)))`. -/
def CoreTimeBasedSplit.n_splits_of (c : CoreTimeBasedSplit) (hc : c.stride ≠ 0)
    (start_dt end_dt : Int) : Except String Nat :=
  if start_dt ≥ end_dt then
    .error "`start_dt` must be before `end_dt`."
  else
    (c.splits_from_period hc start_dt end_dt).map List.length

/-!
### Counting helper

`loopCount slack step` is the number of iterations of a loop that runs while
`0 ≤ slack` and decreases `slack` by `step > 0` each iteration.
-/

/-- Number of `i : ℕ` with `i * step ≤ slack`, for a positive `step`. -/
def loopCount (slack step : Int) : Nat :=
  if 0 ≤ slack then slack.toNat / step.toNat + 1 else 0

lemma loopCount_of_neg {slack : Int} (step : Int) (h : slack < 0) : loopCount slack step = 0 := by
  unfold loopCount
  rw [if_neg (by omega)]

lemma loopCount_succ {slack step : Int} (hstep : 0 < step) (h : 0 ≤ slack) :
    loopCount slack step = loopCount (slack - step) step + 1 := by
  unfold loopCount
  rw [if_pos h]
  by_cases h2 : 0 ≤ slack - step
  · rw [if_pos h2]
    have hle : step.toNat ≤ slack.toNat := by omega
    have hpos : 0 < step.toNat := by omega
    have := Nat.div_eq slack.toNat step.toNat
    rw [this, if_pos ⟨hpos, hle⟩]
    have : slack.toNat - step.toNat = (slack - step).toNat := by omega
    rw [this]
  · rw [if_neg h2]
    have : slack.toNat < step.toNat := by omega
    rw [Nat.div_eq_of_lt this]

lemma lt_loopCount_iff {slack step : Int} (hstep : 0 < step) (i : Nat) :
    i < loopCount slack step ↔ (i : Int) * step ≤ slack := by
  unfold loopCount
  by_cases h : 0 ≤ slack
  · rw [if_pos h]
    rw [Nat.lt_succ_iff]
    rw [Nat.le_div_iff_mul_le (by omega)]
    constructor
    · intro hle
      have : ((i * step.toNat : Nat) : Int) ≤ ((slack.toNat : Nat) : Int) := by
        exact_mod_cast hle
      push_cast at this
      rw [Int.toNat_of_nonneg hstep.le, Int.toNat_of_nonneg h] at this
      exact this
    · intro hle
      have : ((i * step.toNat : Nat) : Int) ≤ ((slack.toNat : Nat) : Int) := by
        push_cast
        rw [Int.toNat_of_nonneg hstep.le, Int.toNat_of_nonneg h]
        exact hle
      exact_mod_cast this
  · rw [if_neg h]
    constructor
    · omega
    · intro hle
      exfalso
      have : (0 : Int) ≤ (i : Int) * step := mul_nonneg (Int.natCast_nonneg i) hstep.le
      omega

lemma loopCount_mono {slack1 slack2 : Int} (step : Int) (h : slack1 ≤ slack2) :
    loopCount slack1 step ≤ loopCount slack2 step := by
  unfold loopCount
  by_cases h1 : 0 ≤ slack1
  · rw [if_pos h1, if_pos (by omega)]
    have : slack1.toNat ≤ slack2.toNat := by omega
    exact Nat.succ_le_succ (Nat.div_le_div_right this)
  · rw [if_neg h1]
    exact Nat.zero_le _

lemma loopCount_anti {step1 step2 : Int} (slack : Int) (h1 : 0 < step1) (h12 : step1 ≤ step2) :
    loopCount slack step2 ≤ loopCount slack step1 := by
  unfold loopCount
  by_cases h : 0 ≤ slack
  · rw [if_pos h, if_pos h]
    exact Nat.succ_le_succ (Nat.div_le_div_left (by omega) (by omega))
  · rw [if_neg h, if_neg h]

/-!
### Closed forms for the loop
-/

lemma iterState_closed (w : WindowType) (sd : Int) (n : Nat) (st : SplitState) :
    iterState w sd n st =
      ⟨st.train_start + (if w = WindowType.rolling then (n : Int) * sd else 0),
       st.train_end + (n : Int) * sd, st.forecast_start + (n : Int) * sd,
       st.forecast_end + (n : Int) * sd⟩ := by
  induction n generalizing st with
  | zero => simp [iterState]
  | succ n ih =>
    rw [iterState, ih]
    unfold stepState
    dsimp only
    simp only [SplitState.mk.injEq]
    split_ifs <;>
      refine ⟨by push_cast; ring, by push_cast; ring, by push_cast; ring, by push_cast; ring⟩

lemma range_succ_map_iter (w : WindowType) (sd : Int) (n : Nat) (st : SplitState) :
    (List.range (n + 1)).map (fun i => iterState w sd i st) =
      st :: (List.range n).map (fun i => iterState w sd i (stepState w sd st)) := by
  rw [List.range_succ_eq_map, List.map_cons, List.map_map]
  rfl

/-- Closed form of the loop in forward mode (`train_delta ≥ 0`,
`stride_delta > 0`): provided the state invariants `time_start ≤ train_start ≤
train_end` hold (they do from the forward initial state onward), the loop
guard reduces to `forecast_start ≤ time_end` and the loop emits one state per
`i` with `forecast_start + i * stride_delta ≤ time_end`. -/
lemma splitsLoop_forward_eq (t0 t1 td sd : Int) (w : WindowType) (hs : sd ≠ 0)
    (hsd : 0 < sd) (htd : 0 ≤ td) (st : SplitState)
    (h2 : t0 ≤ st.train_start) (h3 : st.train_start ≤ st.train_end) :
    splitsLoop t0 t1 td sd w hs st =
      (List.range (loopCount (t1 - st.forecast_start) sd)).map
        (fun i => iterState w sd i st) := by
  revert h2 h3
  induction st using splitsLoop.induct t0 t1 td sd w hs with
  | case1 x hguard ih =>
    intro h2 h3
    obtain ⟨hg1, hg2, hg3⟩ := hguard
    rw [splitsLoop, dif_pos ⟨hg1, hg2, hg3⟩]
    have hslack : (0 : Int) ≤ t1 - x.forecast_start := by omega
    rw [loopCount_succ hsd hslack, range_succ_map_iter]
    have hstep2 : t0 ≤ (stepState w sd x).train_start := by
      unfold stepState; dsimp only; split_ifs <;> omega
    have hstep3 : (stepState w sd x).train_start ≤ (stepState w sd x).train_end := by
      unfold stepState; dsimp only; split_ifs <;> omega
    rw [ih hstep2 hstep3]
    have : t1 - (stepState w sd x).forecast_start = t1 - x.forecast_start - sd := by
      unfold stepState; dsimp only; ring
    rw [this]
  | case2 x hguard =>
    intro h2 h3
    rw [splitsLoop, dif_neg hguard]
    have hfs : t1 < x.forecast_start := by
      by_contra hcon
      exact hguard ⟨by omega, h2, by omega⟩
    rw [loopCount_of_neg sd (by omega)]
    rfl

/-- Closed form of the loop in backward rolling mode (`stride_delta < 0`):
given `forecast_start ≤ time_end` and the rolling identity `train_start =
train_end + train_delta` (both hold from the backward rolling initial state
onward), the guard reduces to `train_start ≥ time_start`. -/
lemma splitsLoop_backward_rolling_eq (t0 t1 td sd : Int) (hs : sd ≠ 0) (hsd : sd < 0)
    (st : SplitState) (h1 : st.forecast_start ≤ t1) (h3 : st.train_start = st.train_end + td) :
    splitsLoop t0 t1 td sd WindowType.rolling hs st =
      (List.range (loopCount (st.train_start - t0) (-sd))).map
        (fun i => iterState WindowType.rolling sd i st) := by
  revert h1 h3
  induction st using splitsLoop.induct t0 t1 td sd WindowType.rolling hs with
  | case1 x hguard ih =>
    intro h1 h3
    obtain ⟨hg1, hg2, hg3⟩ := hguard
    rw [splitsLoop, dif_pos ⟨hg1, hg2, hg3⟩]
    have hslack : (0 : Int) ≤ x.train_start - t0 := by omega
    rw [loopCount_succ (by omega) hslack, range_succ_map_iter]
    have hstep1 : (stepState WindowType.rolling sd x).forecast_start ≤ t1 := by
      unfold stepState; dsimp only; omega
    have hstep3 : (stepState WindowType.rolling sd x).train_start =
        (stepState WindowType.rolling sd x).train_end + td := by
      unfold stepState; dsimp only; rw [if_pos rfl]; omega
    rw [ih hstep1 hstep3]
    have : (stepState WindowType.rolling sd x).train_start - t0 =
        x.train_start - t0 - -sd := by
      unfold stepState; dsimp only; rw [if_pos rfl]; ring
    rw [this]
  | case2 x hguard =>
    intro h1 h3
    rw [splitsLoop, dif_neg hguard]
    have hts : x.train_start < t0 := by
      by_contra hcon
      exact hguard ⟨h1, by omega, by omega⟩
    rw [loopCount_of_neg (-sd) (by omega)]
    rfl

/-- Closed form of the loop in backward expanding mode (`stride_delta < 0`):
given `forecast_start ≤ time_end` and `time_start ≤ train_start` with a
constant `train_start` (both hold from the backward expanding initial state
onward), the guard reduces to `train_start ≤ train_end + train_delta`. -/
lemma splitsLoop_backward_expanding_eq (t0 t1 td sd : Int) (hs : sd ≠ 0) (hsd : sd < 0)
    (st : SplitState) (h1 : st.forecast_start ≤ t1) (h2 : t0 ≤ st.train_start) :
    splitsLoop t0 t1 td sd WindowType.expanding hs st =
      (List.range (loopCount (st.train_end + td - st.train_start) (-sd))).map
        (fun i => iterState WindowType.expanding sd i st) := by
  revert h1 h2
  induction st using splitsLoop.induct t0 t1 td sd WindowType.expanding hs with
  | case1 x hguard ih =>
    intro h1 h2
    obtain ⟨hg1, hg2, hg3⟩ := hguard
    rw [splitsLoop, dif_pos ⟨hg1, hg2, hg3⟩]
    have hslack : (0 : Int) ≤ x.train_end + td - x.train_start := by omega
    rw [loopCount_succ (by omega) hslack, range_succ_map_iter]
    have hstep1 : (stepState WindowType.expanding sd x).forecast_start ≤ t1 := by
      unfold stepState; dsimp only; omega
    have hstep2 : t0 ≤ (stepState WindowType.expanding sd x).train_start := by
      unfold stepState; dsimp only; rw [if_neg (by decide)]; omega
    rw [ih hstep1 hstep2]
    have : (stepState WindowType.expanding sd x).train_end + td -
        (stepState WindowType.expanding sd x).train_start =
        x.train_end + td - x.train_start - -sd := by
      unfold stepState; dsimp only; rw [if_neg (by decide)]; ring
    rw [this]
  | case2 x hguard =>
    intro h1 h2
    rw [splitsLoop, dif_neg hguard]
    have hts : x.train_end + td < x.train_start := by
      by_contra hcon
      exact hguard ⟨h1, h2, by omega⟩
    rw [loopCount_of_neg (-sd) (by omega)]
    rfl

lemma CoreTimeBasedSplit.train_delta_nonneg (c : CoreTimeBasedSplit)
    (h : 1 ≤ c.train_size) : 0 ≤ c.train_delta :=
  mul_nonneg (by omega) (c.frequency.micros_pos).le

lemma CoreTimeBasedSplit.forecast_delta_pos (c : CoreTimeBasedSplit)
    (h : 1 ≤ c.forecast_horizon) : 0 < c.forecast_delta :=
  mul_pos (by omega) c.frequency.micros_pos

lemma CoreTimeBasedSplit.gap_delta_nonneg (c : CoreTimeBasedSplit)
    (h : 0 ≤ c.gap) : 0 ≤ c.gap_delta :=
  mul_nonneg h (c.frequency.micros_pos).le

/-- The number of splits that the loop of `_splits_from_period` emits, as a
function of the configuration and the range. -/
def countFormula (c : CoreTimeBasedSplit) (t0 t1 : Int) : Nat :=
  if c.mode = ModeType.forward then
    loopCount (t1 - (forwardInit c t0).forecast_start) c.stride_delta
  else if c.window = WindowType.rolling then
    loopCount ((backwardInit c t0 t1).train_start - t0) c.stride_delta
  else
    loopCount ((backwardInit c t0 t1).train_end + -c.train_delta -
      (backwardInit c t0 t1).train_start) c.stride_delta

lemma countFormula_forward (c : CoreTimeBasedSplit) (hm : c.mode = ModeType.forward)
    (t0 t1 : Int) :
    countFormula c t0 t1 =
      loopCount (t1 - t0 - c.train_delta - c.gap_delta) c.stride_delta := by
  unfold countFormula forwardInit
  rw [if_pos hm]
  dsimp only
  congr 1
  ring

lemma countFormula_backward (c : CoreTimeBasedSplit) (hm : c.mode = ModeType.backward)
    (t0 t1 : Int) :
    countFormula c t0 t1 =
      loopCount (t1 - t0 - c.train_delta - c.gap_delta - c.forecast_delta) c.stride_delta := by
  unfold countFormula backwardInit
  rw [hm, if_neg (by decide)]
  by_cases hw : c.window = WindowType.rolling
  · rw [if_pos hw]
    dsimp only
    rw [if_pos hw]
    congr 1
    ring
  · rw [if_neg hw]
    dsimp only
    rw [if_neg hw]
    congr 1
    ring

/-- `_splits_from_period` in forward mode, fully evaluated: for a valid range
and configuration it returns the list of the first `countFormula` iterates of
the loop body applied to the forward initial state. -/
lemma splits_from_period_forward_eq (c : CoreTimeBasedSplit) (hc : c.stride ≠ 0)
    (hv : c.validArguments) (hm : c.mode = ModeType.forward) (t0 t1 : Int) (ht : t0 < t1) :
    c.splits_from_period hc t0 t1 =
      .ok ((List.range (countFormula c t0 t1)).map
        (fun i => iterState c.window c.stride_delta i (forwardInit c t0))) := by
  obtain ⟨hts, hfh, hg, hst⟩ := hv
  unfold CoreTimeBasedSplit.splits_from_period
  rw [if_neg (by omega), if_pos hm]
  rw [splitsLoop_forward_eq _ _ _ _ _ _ (c.stride_delta_pos hst) (c.train_delta_nonneg hts)
    (forwardInit c t0)
    (by unfold forwardInit; dsimp only; omega)
    (by unfold forwardInit; dsimp only; have := c.train_delta_nonneg hts; omega)]
  rw [countFormula, if_pos hm]

/-- `_splits_from_period` in backward mode, fully evaluated: for a valid range
and configuration it returns the list of the first `countFormula` iterates of
the (receding) loop body applied to the backward initial state. -/
lemma splits_from_period_backward_eq (c : CoreTimeBasedSplit) (hc : c.stride ≠ 0)
    (hv : c.validArguments) (hm : c.mode = ModeType.backward) (t0 t1 : Int) (ht : t0 < t1) :
    c.splits_from_period hc t0 t1 =
      .ok ((List.range (countFormula c t0 t1)).map
        (fun i => iterState c.window (-c.stride_delta) i (backwardInit c t0 t1))) := by
  obtain ⟨hts, hfh, hg, hst⟩ := hv
  have hsd : -c.stride_delta < 0 := by have := c.stride_delta_pos hst; omega
  have hfd : 0 < c.forecast_delta := c.forecast_delta_pos hfh
  unfold CoreTimeBasedSplit.splits_from_period
  rw [if_neg (by omega), hm, if_neg (by decide)]
  rw [countFormula, hm, if_neg (by decide)]
  by_cases hw : c.window = WindowType.rolling
  · rw [hw]
    rw [splitsLoop_backward_rolling_eq _ _ _ _ _ hsd (backwardInit c t0 t1)
      (by unfold backwardInit; dsimp only; omega)
      (by unfold backwardInit; dsimp only; rw [if_pos hw])]
    rw [if_pos rfl, neg_neg]
  · have hw2 : c.window = WindowType.expanding := by
      cases hcase : c.window
      · exact absurd hcase hw
      · rfl
    rw [hw2]
    rw [splitsLoop_backward_expanding_eq _ _ _ _ _ hsd (backwardInit c t0 t1)
      (by unfold backwardInit; dsimp only; omega)
      (by unfold backwardInit; dsimp only; rw [if_neg hw])]
    rw [if_neg (by decide), neg_neg]

/-- The number of splits yielded by `_splits_from_period` on a valid range is
`countFormula`. -/
lemma length_splits (c : CoreTimeBasedSplit) (hc : c.stride ≠ 0) (hv : c.validArguments)
    (t0 t1 : Int) (ht : t0 < t1) (l : List SplitState)
    (hl : c.splits_from_period hc t0 t1 = .ok l) : l.length = countFormula c t0 t1 := by
  by_cases hm : c.mode = ModeType.forward
  · rw [splits_from_period_forward_eq c hc hv hm t0 t1 ht] at hl
    cases hl
    simp
  · have hm2 : c.mode = ModeType.backward := by
      cases hcase : c.mode
      · exact absurd hcase hm
      · rfl
    rw [splits_from_period_backward_eq c hc hv hm2 t0 t1 ht] at hl
    cases hl
    simp

/-- Every state emitted by the loop is ordered, provided the constant offsets
between `train_end`, `forecast_start` and `forecast_end` are nonnegative and
either `train_delta ≤ 0` (backward mode, where the third guard bounds
`train_start` by `train_end + train_delta ≤ train_end`) or the invariant
`train_start ≤ train_end` holds and is preserved (`stride_delta ≥ 0`). -/
lemma mem_splitsLoop_ordered (t0 t1 td sd : Int) (w : WindowType) (hs : sd ≠ 0)
    (g f : Int) (hg : 0 ≤ g) (hf : 0 ≤ f) (st : SplitState)
    (hlink1 : st.train_end + g = st.forecast_start)
    (hlink2 : st.forecast_start + f = st.forecast_end)
    (hts : td ≤ 0 ∨ (0 ≤ sd ∧ st.train_start ≤ st.train_end)) :
    ∀ s ∈ splitsLoop t0 t1 td sd w hs st,
      s.train_start ≤ s.train_end ∧ s.train_end ≤ s.forecast_start ∧
        s.forecast_start ≤ s.forecast_end := by
  revert hlink1 hlink2 hts
  induction st using splitsLoop.induct t0 t1 td sd w hs with
  | case1 x hguard ih =>
    intro hlink1 hlink2 hts s hmem
    rw [splitsLoop, dif_pos hguard] at hmem
    obtain ⟨hg1, hg2, hg3⟩ := hguard
    rcases List.mem_cons.mp hmem with rfl | hmem2
    · refine ⟨?_, by omega, by omega⟩
      rcases hts with h | ⟨hsd, h⟩
      · omega
      · exact h
    · refine ih ?_ ?_ ?_ s hmem2
      · unfold stepState; dsimp only; omega
      · unfold stepState; dsimp only; omega
      · rcases hts with h | ⟨hsd, h⟩
        · exact Or.inl h
        · refine Or.inr ⟨hsd, ?_⟩
          unfold stepState; dsimp only; split_ifs <;> omega
  | case2 x hguard =>
    intro hlink1 hlink2 hts s hmem
    rw [splitsLoop, dif_neg hguard] at hmem
    exact absurd hmem (List.not_mem_nil s)

/-- When `time_start < time_end`, `_splits_from_period` does not raise. -/
lemma splits_from_period_ok (c : CoreTimeBasedSplit) (hc : c.stride ≠ 0) {a b : Int}
    (hab : a < b) : ∃ l, c.splits_from_period hc a b = .ok l := by
  unfold CoreTimeBasedSplit.splits_from_period
  rw [if_neg (by omega)]
  by_cases hm : c.mode = ModeType.forward
  · rw [if_pos hm]
    exact ⟨_, rfl⟩
  · rw [if_neg hm]
    exact ⟨_, rfl⟩

/-- When `time_start ≥ time_end`, `_splits_from_period` raises immediately. -/
lemma splits_from_period_error (c : CoreTimeBasedSplit) (hc : c.stride ≠ 0) {a b : Int}
    (hab : b ≤ a) :
    c.splits_from_period hc a b = .error "`time_start` must be before `time_end`." := by
  unfold CoreTimeBasedSplit.splits_from_period
  rw [if_pos (by omega)]

/-!
### Concrete instances

`cfgC4` is the boundary scenario of the spec: `frequency="days", train_size=4,
forecast_horizon=3, gap=0, stride=None, window="rolling", mode="forward"` over
a 10-day range starting at microsecond 0; one day is `86400000000`
microseconds.  `cfgExp` is a small expanding-window forward configuration, and
`cfgC9` is `cfgC4` with `train_size=5`.
-/

def cfgC4 : CoreTimeBasedSplit :=
  mkCoreTimeBasedSplit FrequencyUnit.days 4 3 0 none WindowType.rolling ModeType.forward

lemma cfgC4_stride : cfgC4.stride ≠ 0 := by decide

/-- Day offsets (0, 4, 4, 7) from the range start, in microseconds. -/
def splitC4_one : SplitState := ⟨0, 345600000000, 345600000000, 604800000000⟩

/-- Day offsets (3, 7, 7, 10) from the range start, in microseconds. -/
def splitC4_two : SplitState := ⟨259200000000, 604800000000, 604800000000, 864000000000⟩

/-- Day offsets (6, 10, 10, 13) from the range start, in microseconds. -/
def splitC4_three : SplitState := ⟨518400000000, 864000000000, 864000000000, 1123200000000⟩

lemma cfgC4_splits_eval : cfgC4.splits_from_period cfgC4_stride 0 864000000000 =
    .ok [splitC4_one, splitC4_two, splitC4_three] := by
  rw [splits_from_period_forward_eq cfgC4 cfgC4_stride (by decide) rfl 0 864000000000
    (by decide)]
  rfl

def cfgExp : CoreTimeBasedSplit :=
  mkCoreTimeBasedSplit FrequencyUnit.days 1 1 0 (some 1) WindowType.expanding ModeType.forward

lemma cfgExp_stride : cfgExp.stride ≠ 0 := by decide

def splitExp_one : SplitState := ⟨0, 86400000000, 86400000000, 172800000000⟩

def splitExp_two : SplitState := ⟨0, 172800000000, 172800000000, 259200000000⟩

def splitExp_three : SplitState := ⟨0, 259200000000, 259200000000, 345600000000⟩

lemma cfgExp_splits_eval : cfgExp.splits_from_period cfgExp_stride 0 259200000000 =
    .ok [splitExp_one, splitExp_two, splitExp_three] := by
  rw [splits_from_period_forward_eq cfgExp cfgExp_stride (by decide) rfl 0 259200000000
    (by decide)]
  rfl

def cfgC9 : CoreTimeBasedSplit :=
  ⟨FrequencyUnit.days, 5, 3, 0, 3, WindowType.rolling, ModeType.forward⟩

lemma cfgC9_stride : cfgC9.stride ≠ 0 := by decide

def splitC9_one : SplitState := ⟨0, 432000000000, 432000000000, 691200000000⟩

def splitC9_two : SplitState := ⟨259200000000, 691200000000, 691200000000, 950400000000⟩

lemma cfgC9_splits_eval : cfgC9.splits_from_period cfgC9_stride 0 864000000000 =
    .ok [splitC9_one, splitC9_two] := by
  rw [splits_from_period_forward_eq cfgC9 cfgC9_stride (by decide) rfl 0 864000000000
    (by decide)]
  rfl

/-!
### Claims
-/

/-- Claim C1: for every valid configuration and every range with
`time_start < time_end`, every `SplitState` yielded by `_splits_from_period`
satisfies `train_start ≤ train_end ≤ forecast_start ≤ forecast_end`. -/
theorem claim_C1 (c : CoreTimeBasedSplit) (hc : c.stride ≠ 0) (hv : c.validArguments)
    (t0 t1 : Int) (ht : t0 < t1) (l : List SplitState)
    (hl : c.splits_from_period hc t0 t1 = .ok l) :
    ∀ s ∈ l, s.train_start ≤ s.train_end ∧ s.train_end ≤ s.forecast_start ∧
      s.forecast_start ≤ s.forecast_end := by
  obtain ⟨hts, hfh, hg, hst⟩ := hv
  unfold CoreTimeBasedSplit.splits_from_period at hl
  rw [if_neg (by omega)] at hl
  by_cases hm : c.mode = ModeType.forward
  · rw [if_pos hm] at hl
    cases hl
    refine mem_splitsLoop_ordered _ _ _ _ _ _ c.gap_delta c.forecast_delta
      (c.gap_delta_nonneg hg) (c.forecast_delta_pos hfh).le _ ?_ ?_
      (Or.inr ⟨(c.stride_delta_pos hst).le, ?_⟩)
    · unfold forwardInit; dsimp only
    · unfold forwardInit; dsimp only
    · unfold forwardInit; dsimp only
      have := c.train_delta_nonneg hts
      omega
  · rw [if_neg hm] at hl
    cases hl
    refine mem_splitsLoop_ordered _ _ _ _ _ _ c.gap_delta c.forecast_delta
      (c.gap_delta_nonneg hg) (c.forecast_delta_pos hfh).le _ ?_ ?_ (Or.inl ?_)
    · unfold backwardInit; dsimp only; ring
    · unfold backwardInit; dsimp only; ring
    · have := c.train_delta_nonneg hts
      omega

/-- Claim C3: for a valid configuration and `start_dt < end_dt`, `n_splits_of`
returns exactly the number of elements yielded by `_splits_from_period`. -/
theorem claim_C3 (c : CoreTimeBasedSplit) (hc : c.stride ≠ 0) (hv : c.validArguments)
    (a b : Int) (hab : a < b) (l : List SplitState)
    (hl : c.splits_from_period hc a b = .ok l) :
    c.n_splits_of hc a b = .ok l.length := by
  unfold CoreTimeBasedSplit.n_splits_of
  rw [if_neg (by omega), hl]
  rfl

/-- Claim C8: for every valid configuration, `_splits_from_period(a, b)` raises
the invalid-range error exactly when `a ≥ b` (returning no elements in that
case, since `Except.error` carries none), and `n_splits_of(start_dt=a,
end_dt=b)` raises under the same condition. -/
theorem claim_C8 (c : CoreTimeBasedSplit) (hc : c.stride ≠ 0) (hv : c.validArguments)
    (a b : Int) :
    ((∃ msg, c.splits_from_period hc a b = .error msg) ↔ b ≤ a) ∧
    ((∃ msg, c.n_splits_of hc a b = .error msg) ↔ b ≤ a) := by
  by_cases hab : b ≤ a
  · refine ⟨⟨fun _ => hab, fun _ => ⟨_, splits_from_period_error c hc hab⟩⟩,
      ⟨fun _ => hab, fun _ => ⟨"`start_dt` must be before `end_dt`.", ?_⟩⟩⟩
    unfold CoreTimeBasedSplit.n_splits_of
    rw [if_pos (by omega)]
  · obtain ⟨l, hl⟩ := splits_from_period_ok c hc (show a < b by omega)
    constructor
    · constructor
      · rintro ⟨msg, hmsg⟩
        rw [hl] at hmsg
        exact Except.noConfusion hmsg
      · intro h
        exact absurd h hab
    · constructor
      · rintro ⟨msg, hmsg⟩
        unfold CoreTimeBasedSplit.n_splits_of at hmsg
        rw [if_neg (by omega), hl] at hmsg
        exact Except.noConfusion hmsg
      · intro h
        exact absurd h hab

/-- Claim C10: in forward mode with a valid configuration and
`time_start < time_end`, the generator raises no error, yields at least one
split exactly when `time_start + train_delta + gap_delta ≤ time_end`, and
otherwise yields the empty sequence so the count is `0`. -/
theorem claim_C10 (c : CoreTimeBasedSplit) (hc : c.stride ≠ 0) (hv : c.validArguments)
    (hm : c.mode = ModeType.forward) (t0 t1 : Int) (ht : t0 < t1) :
    ∃ l, c.splits_from_period hc t0 t1 = .ok l ∧
      (l ≠ [] ↔ t0 + c.train_delta + c.gap_delta ≤ t1) ∧
      c.n_splits_of hc t0 t1 = .ok l.length := by
  refine ⟨_, splits_from_period_forward_eq c hc hv hm t0 t1 ht, ?_, ?_⟩
  · have hsd : 0 < c.stride_delta := c.stride_delta_pos hv.2.2.2
    have hiff : 0 < countFormula c t0 t1 ↔ t0 + c.train_delta + c.gap_delta ≤ t1 := by
      rw [countFormula, if_pos hm, lt_loopCount_iff hsd 0, Nat.cast_zero, zero_mul]
      unfold forwardInit
      dsimp only
      omega
    have hnil : (List.map (fun i => iterState c.window c.stride_delta i (forwardInit c t0))
        (List.range (countFormula c t0 t1)) ≠ []) ↔ 0 < countFormula c t0 t1 := by
      rw [ne_eq, List.map_eq_nil_iff, List.range_eq_nil]
      omega
    rw [hnil]
    exact hiff
  · unfold CoreTimeBasedSplit.n_splits_of
    rw [if_neg (by omega), splits_from_period_forward_eq c hc hv hm t0 t1 ht]
    rfl

lemma get_map_range {α : Type} (f : Nat → α) (n j : Nat)
    (hj : j < ((List.range n).map f).length) : ((List.range n).map f).get ⟨j, hj⟩ = f j := by
  simp

/-- Claim C2: in forward mode with a valid configuration, a candidate state is
emitted exactly when its `forecast_start` is at most `time_end`; every emitted
split has `forecast_start ≤ time_end` and a forecast window of the full nominal
length `forecast_delta` (no upper clamp on `forecast_end`). -/
theorem claim_C2 (c : CoreTimeBasedSplit) (hc : c.stride ≠ 0) (hv : c.validArguments)
    (hm : c.mode = ModeType.forward) (t0 t1 : Int) (ht : t0 < t1) (l : List SplitState)
    (hl : c.splits_from_period hc t0 t1 = .ok l) :
    (∀ s ∈ l, s.forecast_start ≤ t1 ∧
      s.forecast_end - s.forecast_start = c.forecast_delta) ∧
    (∀ i : Nat, iterState c.window c.stride_delta i (forwardInit c t0) ∈ l ↔
      (iterState c.window c.stride_delta i (forwardInit c t0)).forecast_start ≤ t1) := by
  have hsd : 0 < c.stride_delta := c.stride_delta_pos hv.2.2.2
  rw [splits_from_period_forward_eq c hc hv hm t0 t1 ht] at hl
  cases hl
  constructor
  · intro s hmem
    rw [List.mem_map] at hmem
    obtain ⟨i, hi, rfl⟩ := hmem
    rw [List.mem_range, countFormula, if_pos hm] at hi
    have hle := (lt_loopCount_iff hsd i).mp hi
    constructor
    · rw [iterState_closed]
      dsimp only
      linarith
    · rw [iterState_closed]
      dsimp only
      unfold forwardInit
      dsimp only
      ring
  · intro i
    constructor
    · intro hmem
      rw [List.mem_map] at hmem
      obtain ⟨j, hj, heq⟩ := hmem
      rw [List.mem_range, countFormula, if_pos hm] at hj
      have hle := (lt_loopCount_iff hsd j).mp hj
      have hfs : (iterState c.window c.stride_delta j (forwardInit c t0)).forecast_start =
          (iterState c.window c.stride_delta i (forwardInit c t0)).forecast_start := by
        rw [heq]
      rw [iterState_closed, iterState_closed] at hfs
      dsimp only at hfs
      rw [iterState_closed]
      dsimp only
      linarith
    · intro hle
      rw [iterState_closed] at hle
      dsimp only at hle
      rw [List.mem_map]
      refine ⟨i, ?_, rfl⟩
      rw [List.mem_range, countFormula, if_pos hm]
      refine (lt_loopCount_iff hsd i).mpr ?_
      linarith

lemma splits_get_forward (c : CoreTimeBasedSplit) (hc : c.stride ≠ 0) (hv : c.validArguments)
    (hm : c.mode = ModeType.forward) (t0 t1 : Int) (ht : t0 < t1) (l : List SplitState)
    (hl : c.splits_from_period hc t0 t1 = .ok l) (j : Nat) (hj : j < l.length) :
    l.get ⟨j, hj⟩ = iterState c.window c.stride_delta j (forwardInit c t0) := by
  rw [splits_from_period_forward_eq c hc hv hm t0 t1 ht] at hl
  cases hl
  exact get_map_range _ _ _ _

lemma splits_get_backward (c : CoreTimeBasedSplit) (hc : c.stride ≠ 0) (hv : c.validArguments)
    (hm : c.mode = ModeType.backward) (t0 t1 : Int) (ht : t0 < t1) (l : List SplitState)
    (hl : c.splits_from_period hc t0 t1 = .ok l) (j : Nat) (hj : j < l.length) :
    l.get ⟨j, hj⟩ = iterState c.window (-c.stride_delta) j (backwardInit c t0 t1) := by
  rw [splits_from_period_backward_eq c hc hv hm t0 t1 ht] at hl
  cases hl
  exact get_map_range _ _ _ _

/-- Claim C5, amended: between consecutive emitted splits, `train_end`,
`forecast_start` and `forecast_end` are strictly increasing in forward mode and
strictly decreasing in backward mode; `train_start` is strictly
increasing/decreasing only for a rolling window, and is unchanged for an
expanding window. -/
theorem claim_C5_amended (c : CoreTimeBasedSplit) (hc : c.stride ≠ 0) (hv : c.validArguments)
    (t0 t1 : Int) (ht : t0 < t1) (l : List SplitState)
    (hl : c.splits_from_period hc t0 t1 = .ok l) (i : Nat) (h : i + 1 < l.length) :
    (c.mode = ModeType.forward →
      (l.get ⟨i, by omega⟩).train_end < (l.get ⟨i + 1, h⟩).train_end ∧
      (l.get ⟨i, by omega⟩).forecast_start < (l.get ⟨i + 1, h⟩).forecast_start ∧
      (l.get ⟨i, by omega⟩).forecast_end < (l.get ⟨i + 1, h⟩).forecast_end ∧
      (c.window = WindowType.rolling →
        (l.get ⟨i, by omega⟩).train_start < (l.get ⟨i + 1, h⟩).train_start) ∧
      (c.window = WindowType.expanding →
        (l.get ⟨i, by omega⟩).train_start = (l.get ⟨i + 1, h⟩).train_start)) ∧
    (c.mode = ModeType.backward →
      (l.get ⟨i + 1, h⟩).train_end < (l.get ⟨i, by omega⟩).train_end ∧
      (l.get ⟨i + 1, h⟩).forecast_start < (l.get ⟨i, by omega⟩).forecast_start ∧
      (l.get ⟨i + 1, h⟩).forecast_end < (l.get ⟨i, by omega⟩).forecast_end ∧
      (c.window = WindowType.rolling →
        (l.get ⟨i + 1, h⟩).train_start < (l.get ⟨i, by omega⟩).train_start) ∧
      (c.window = WindowType.expanding →
        (l.get ⟨i, by omega⟩).train_start = (l.get ⟨i + 1, h⟩).train_start)) := by
  have hsd : 0 < c.stride_delta := c.stride_delta_pos hv.2.2.2
  have hcast : ((i + 1 : Nat) : Int) = (i : Int) + 1 := by push_cast; ring
  constructor
  · intro hm
    rw [splits_get_forward c hc hv hm t0 t1 ht l hl i (by omega),
      splits_get_forward c hc hv hm t0 t1 ht l hl (i + 1) h,
      iterState_closed, iterState_closed]
    dsimp only
    have hmul : ((i + 1 : Nat) : Int) * c.stride_delta =
        (i : Int) * c.stride_delta + c.stride_delta := by
      rw [hcast]; ring
    refine ⟨by linarith, by linarith, by linarith, ?_, ?_⟩
    · intro hw
      rw [if_pos hw, if_pos hw]
      linarith
    · intro hw
      rw [if_neg (by rw [hw]; decide), if_neg (by rw [hw]; decide)]
  · intro hm
    rw [splits_get_backward c hc hv hm t0 t1 ht l hl i (by omega),
      splits_get_backward c hc hv hm t0 t1 ht l hl (i + 1) h,
      iterState_closed, iterState_closed]
    dsimp only
    have hmul : ((i + 1 : Nat) : Int) * -c.stride_delta =
        (i : Int) * -c.stride_delta + -c.stride_delta := by
      rw [hcast]; ring
    refine ⟨by linarith, by linarith, by linarith, ?_, ?_⟩
    · intro hw
      rw [if_pos hw, if_pos hw]
      linarith
    · intro hw
      rw [if_neg (by rw [hw]; decide), if_neg (by rw [hw]; decide)]

/-- Claim C6: with an expanding window, `train_start` equals `time_start` in
every emitted split (both modes), and in forward mode the training span
`train_end − train_start` grows by exactly `stride_delta` between consecutive
splits. -/
theorem claim_C6 (c : CoreTimeBasedSplit) (hc : c.stride ≠ 0) (hv : c.validArguments)
    (hw : c.window = WindowType.expanding) (t0 t1 : Int) (ht : t0 < t1) (l : List SplitState)
    (hl : c.splits_from_period hc t0 t1 = .ok l) :
    (c.mode = ModeType.forward →
      (∀ s ∈ l, s.train_start = t0) ∧
      (∀ i : Nat, ∀ h : i + 1 < l.length,
        (l.get ⟨i + 1, h⟩).train_end - (l.get ⟨i + 1, h⟩).train_start =
          ((l.get ⟨i, by omega⟩).train_end - (l.get ⟨i, by omega⟩).train_start) +
            c.stride_delta)) ∧
    (c.mode = ModeType.backward → ∀ s ∈ l, s.train_start = t0) := by
  have hwr : ¬ c.window = WindowType.rolling := by rw [hw]; decide
  constructor
  · intro hm
    constructor
    · intro s hmem
      have hl2 := hl
      rw [splits_from_period_forward_eq c hc hv hm t0 t1 ht] at hl2
      cases hl2
      rw [List.mem_map] at hmem
      obtain ⟨j, _, rfl⟩ := hmem
      rw [iterState_closed]
      dsimp only
      rw [if_neg hwr]
      unfold forwardInit
      dsimp only
      ring
    · intro i h
      rw [splits_get_forward c hc hv hm t0 t1 ht l hl i (by omega),
        splits_get_forward c hc hv hm t0 t1 ht l hl (i + 1) h,
        iterState_closed, iterState_closed]
      dsimp only
      rw [if_neg hwr, if_neg hwr]
      push_cast
      ring
  · intro hm
    intro s hmem
    have hl2 := hl
    rw [splits_from_period_backward_eq c hc hv hm t0 t1 ht] at hl2
    cases hl2
    rw [List.mem_map] at hmem
    obtain ⟨j, _, rfl⟩ := hmem
    rw [iterState_closed]
    dsimp only
    rw [if_neg hwr]
    unfold backwardInit
    dsimp only
    rw [if_neg hwr]
    ring

/-- Claim C7: constructing with `stride=None` or `stride=0` yields the very
same configuration object as passing `stride = forecast_horizon` explicitly,
hence `_splits_from_period` yields identical sequences. -/
theorem claim_C7 (freq : FrequencyUnit) (train_size forecast_horizon gap : Int)
    (w : WindowType) (m : ModeType) (t0 t1 : Int) (ht : t0 < t1) :
    mkCoreTimeBasedSplit freq train_size forecast_horizon gap none w m =
      mkCoreTimeBasedSplit freq train_size forecast_horizon gap (some forecast_horizon) w m ∧
    mkCoreTimeBasedSplit freq train_size forecast_horizon gap (some 0) w m =
      mkCoreTimeBasedSplit freq train_size forecast_horizon gap (some forecast_horizon) w m ∧
    ∀ (h1 : (mkCoreTimeBasedSplit freq train_size forecast_horizon gap none w m).stride ≠ 0)
      (h2 : (mkCoreTimeBasedSplit freq train_size forecast_horizon gap (some 0) w m).stride ≠ 0)
      (h3 : (mkCoreTimeBasedSplit freq train_size forecast_horizon gap
        (some forecast_horizon) w m).stride ≠ 0),
      (mkCoreTimeBasedSplit freq train_size forecast_horizon gap none w m).splits_from_period
          h1 t0 t1 =
        (mkCoreTimeBasedSplit freq train_size forecast_horizon gap (some forecast_horizon) w
          m).splits_from_period h3 t0 t1 ∧
      (mkCoreTimeBasedSplit freq train_size forecast_horizon gap (some 0) w
          m).splits_from_period h2 t0 t1 =
        (mkCoreTimeBasedSplit freq train_size forecast_horizon gap (some forecast_horizon) w
          m).splits_from_period h3 t0 t1 := by
  have e1 : mkCoreTimeBasedSplit freq train_size forecast_horizon gap none w m =
      mkCoreTimeBasedSplit freq train_size forecast_horizon gap (some forecast_horizon) w m := by
    unfold mkCoreTimeBasedSplit
    simp
  have e2 : mkCoreTimeBasedSplit freq train_size forecast_horizon gap (some 0) w m =
      mkCoreTimeBasedSplit freq train_size forecast_horizon gap (some forecast_horizon) w m := by
    unfold mkCoreTimeBasedSplit
    simp
  refine ⟨e1, e2, ?_⟩
  rw [e1, e2]
  intro h1 h2 h3
  exact ⟨rfl, rfl⟩

/-- The split count is antitone in each of the four duration parameters, all
four compared at once. -/
lemma countFormula_mono_params (freq : FrequencyUnit) (w : WindowType) (m : ModeType)
    (a b : Int) (ts1 ts2 fh1 fh2 g1 g2 s1 s2 : Int)
    (hts : ts1 ≤ ts2) (hfh : fh1 ≤ fh2) (hg : g1 ≤ g2) (hs : s1 ≤ s2) (hs1 : 1 ≤ s1) :
    countFormula ⟨freq, ts2, fh2, g2, s2, w, m⟩ a b ≤
      countFormula ⟨freq, ts1, fh1, g1, s1, w, m⟩ a b := by
  have hu : 0 < freq.micros := freq.micros_pos
  have hmul : ∀ x y : Int, x ≤ y → x * freq.micros ≤ y * freq.micros := fun x y hxy =>
    mul_le_mul_of_nonneg_right hxy hu.le
  have hs1u : 0 < s1 * freq.micros := mul_pos (by omega) hu
  cases m with
  | forward =>
    rw [countFormula_forward _ rfl, countFormula_forward _ rfl]
    unfold CoreTimeBasedSplit.train_delta CoreTimeBasedSplit.gap_delta
      CoreTimeBasedSplit.stride_delta
    dsimp only
    calc loopCount (b - a - ts2 * freq.micros - g2 * freq.micros) (s2 * freq.micros) ≤
        loopCount (b - a - ts2 * freq.micros - g2 * freq.micros) (s1 * freq.micros) :=
          loopCount_anti _ hs1u (hmul _ _ hs)
      _ ≤ loopCount (b - a - ts1 * freq.micros - g1 * freq.micros) (s1 * freq.micros) := by
          refine loopCount_mono _ ?_
          have h1 := hmul _ _ hts
          have h2 := hmul _ _ hg
          omega
  | backward =>
    rw [countFormula_backward _ rfl, countFormula_backward _ rfl]
    unfold CoreTimeBasedSplit.train_delta CoreTimeBasedSplit.gap_delta
      CoreTimeBasedSplit.forecast_delta CoreTimeBasedSplit.stride_delta
    dsimp only
    calc loopCount (b - a - ts2 * freq.micros - g2 * freq.micros - fh2 * freq.micros)
          (s2 * freq.micros) ≤
        loopCount (b - a - ts2 * freq.micros - g2 * freq.micros - fh2 * freq.micros)
          (s1 * freq.micros) := loopCount_anti _ hs1u (hmul _ _ hs)
      _ ≤ loopCount (b - a - ts1 * freq.micros - g1 * freq.micros - fh1 * freq.micros)
          (s1 * freq.micros) := by
          refine loopCount_mono _ ?_
          have h1 := hmul _ _ hts
          have h2 := hmul _ _ hg
          have h3 := hmul _ _ hfh
          omega

/-- Claim C9: for a fixed valid range and fixed other parameters, the number of
splits yielded by `_splits_from_period` is monotonically non-increasing in
`train_size`, in `forecast_horizon`, in `gap`, and in `stride`. -/
theorem claim_C9 (freq : FrequencyUnit) (w : WindowType) (m : ModeType) (a b : Int)
    (hab : a < b) :
    (∀ ts1 ts2 fh g s : Int,
      ∀ hv1 : (⟨freq, ts1, fh, g, s, w, m⟩ : CoreTimeBasedSplit).validArguments,
      ∀ hv2 : (⟨freq, ts2, fh, g, s, w, m⟩ : CoreTimeBasedSplit).validArguments,
      ts1 ≤ ts2 →
      ∀ h1 : (⟨freq, ts1, fh, g, s, w, m⟩ : CoreTimeBasedSplit).stride ≠ 0,
      ∀ h2 : (⟨freq, ts2, fh, g, s, w, m⟩ : CoreTimeBasedSplit).stride ≠ 0,
      ∀ l1 l2 : List SplitState,
      (⟨freq, ts1, fh, g, s, w, m⟩ : CoreTimeBasedSplit).splits_from_period h1 a b = .ok l1 →
      (⟨freq, ts2, fh, g, s, w, m⟩ : CoreTimeBasedSplit).splits_from_period h2 a b = .ok l2 →
      l2.length ≤ l1.length) ∧
    (∀ ts fh1 fh2 g s : Int,
      ∀ hv1 : (⟨freq, ts, fh1, g, s, w, m⟩ : CoreTimeBasedSplit).validArguments,
      ∀ hv2 : (⟨freq, ts, fh2, g, s, w, m⟩ : CoreTimeBasedSplit).validArguments,
      fh1 ≤ fh2 →
      ∀ h1 : (⟨freq, ts, fh1, g, s, w, m⟩ : CoreTimeBasedSplit).stride ≠ 0,
      ∀ h2 : (⟨freq, ts, fh2, g, s, w, m⟩ : CoreTimeBasedSplit).stride ≠ 0,
      ∀ l1 l2 : List SplitState,
      (⟨freq, ts, fh1, g, s, w, m⟩ : CoreTimeBasedSplit).splits_from_period h1 a b = .ok l1 →
      (⟨freq, ts, fh2, g, s, w, m⟩ : CoreTimeBasedSplit).splits_from_period h2 a b = .ok l2 →
      l2.length ≤ l1.length) ∧
    (∀ ts fh g1 g2 s : Int,
      ∀ hv1 : (⟨freq, ts, fh, g1, s, w, m⟩ : CoreTimeBasedSplit).validArguments,
      ∀ hv2 : (⟨freq, ts, fh, g2, s, w, m⟩ : CoreTimeBasedSplit).validArguments,
      g1 ≤ g2 →
      ∀ h1 : (⟨freq, ts, fh, g1, s, w, m⟩ : CoreTimeBasedSplit).stride ≠ 0,
      ∀ h2 : (⟨freq, ts, fh, g2, s, w, m⟩ : CoreTimeBasedSplit).stride ≠ 0,
      ∀ l1 l2 : List SplitState,
      (⟨freq, ts, fh, g1, s, w, m⟩ : CoreTimeBasedSplit).splits_from_period h1 a b = .ok l1 →
      (⟨freq, ts, fh, g2, s, w, m⟩ : CoreTimeBasedSplit).splits_from_period h2 a b = .ok l2 →
      l2.length ≤ l1.length) ∧
    (∀ ts fh g s1 s2 : Int,
      ∀ hv1 : (⟨freq, ts, fh, g, s1, w, m⟩ : CoreTimeBasedSplit).validArguments,
      ∀ hv2 : (⟨freq, ts, fh, g, s2, w, m⟩ : CoreTimeBasedSplit).validArguments,
      s1 ≤ s2 →
      ∀ h1 : (⟨freq, ts, fh, g, s1, w, m⟩ : CoreTimeBasedSplit).stride ≠ 0,
      ∀ h2 : (⟨freq, ts, fh, g, s2, w, m⟩ : CoreTimeBasedSplit).stride ≠ 0,
      ∀ l1 l2 : List SplitState,
      (⟨freq, ts, fh, g, s1, w, m⟩ : CoreTimeBasedSplit).splits_from_period h1 a b = .ok l1 →
      (⟨freq, ts, fh, g, s2, w, m⟩ : CoreTimeBasedSplit).splits_from_period h2 a b = .ok l2 →
      l2.length ≤ l1.length) := by
  refine ⟨?_, ?_, ?_, ?_⟩
  · intro ts1 ts2 fh g s hv1 hv2 hle h1 h2 l1 l2 hl1 hl2
    rw [length_splits _ h1 hv1 a b hab l1 hl1, length_splits _ h2 hv2 a b hab l2 hl2]
    exact countFormula_mono_params freq w m a b ts1 ts2 fh fh g g s s hle le_rfl le_rfl
      le_rfl hv1.2.2.2
  · intro ts fh1 fh2 g s hv1 hv2 hle h1 h2 l1 l2 hl1 hl2
    rw [length_splits _ h1 hv1 a b hab l1 hl1, length_splits _ h2 hv2 a b hab l2 hl2]
    exact countFormula_mono_params freq w m a b ts ts fh1 fh2 g g s s le_rfl hle le_rfl
      le_rfl hv1.2.2.2
  · intro ts fh g1 g2 s hv1 hv2 hle h1 h2 l1 l2 hl1 hl2
    rw [length_splits _ h1 hv1 a b hab l1 hl1, length_splits _ h2 hv2 a b hab l2 hl2]
    exact countFormula_mono_params freq w m a b ts ts fh fh g1 g2 s s le_rfl le_rfl hle
      le_rfl hv1.2.2.2
  · intro ts fh g s1 s2 hv1 hv2 hle h1 h2 l1 l2 hl1 hl2
    rw [length_splits _ h1 hv1 a b hab l1 hl1, length_splits _ h2 hv2 a b hab l2 hl2]
    exact countFormula_mono_params freq w m a b ts ts fh fh g g s1 s2 le_rfl le_rfl le_rfl
      hle hv1.2.2.2

/-- Claim C4: with `frequency="days", train_size=4, forecast_horizon=3, gap=0,
stride=None` (defaulted to 3), `window="rolling"`, `mode="forward"` over a
10-day range starting at day 0, `_splits_from_period` yields exactly the three
splits with day offsets (0,4,4,7), (3,7,7,10), (6,10,10,13), and the third
split's `forecast_end` (day 13) lies past the range end (day 10). -/
theorem claim_C4 :
    cfgC4.splits_from_period cfgC4_stride 0 864000000000 =
      .ok [splitC4_one, splitC4_two, splitC4_three] ∧
    (864000000000 : Int) < splitC4_three.forecast_end :=
  ⟨cfgC4_splits_eval, by decide⟩

/-- Claim C5 counterexample: `cfgExp` is a valid forward-mode configuration and
a valid range on which two consecutive emitted splits have equal `train_start`
(the window is expanding), so the four fields are not all strictly increasing
from one split to the next as the claim states. -/
theorem claim_C5_counterexample :
    cfgExp.validArguments ∧ cfgExp.mode = ModeType.forward ∧ ((0 : Int) < 259200000000) ∧
    cfgExp.splits_from_period cfgExp_stride 0 259200000000 =
      .ok [splitExp_one, splitExp_two, splitExp_three] ∧
    splitExp_one.train_start = splitExp_two.train_start :=
  ⟨by decide, rfl, by decide, cfgExp_splits_eval, by decide⟩

/-!
### Witnesses
-/

theorem claim_C1_witness :
    splitC4_three.train_start ≤ splitC4_three.train_end ∧
      splitC4_three.train_end ≤ splitC4_three.forecast_start ∧
      splitC4_three.forecast_start ≤ splitC4_three.forecast_end :=
  claim_C1 cfgC4 cfgC4_stride (by decide) 0 864000000000 (by decide) _ cfgC4_splits_eval
    splitC4_three (by decide)

theorem claim_C2_witness :
    (∀ s ∈ [splitC4_one, splitC4_two, splitC4_three],
      s.forecast_start ≤ 864000000000 ∧
        s.forecast_end - s.forecast_start = cfgC4.forecast_delta) ∧
    (∀ i : Nat, iterState cfgC4.window cfgC4.stride_delta i (forwardInit cfgC4 0) ∈
        [splitC4_one, splitC4_two, splitC4_three] ↔
      (iterState cfgC4.window cfgC4.stride_delta i
        (forwardInit cfgC4 0)).forecast_start ≤ 864000000000) :=
  claim_C2 cfgC4 cfgC4_stride (by decide) rfl 0 864000000000 (by decide) _ cfgC4_splits_eval

theorem claim_C3_witness :
    cfgC4.n_splits_of cfgC4_stride 0 864000000000 =
      .ok (List.length [splitC4_one, splitC4_two, splitC4_three]) :=
  claim_C3 cfgC4 cfgC4_stride (by decide) 0 864000000000 (by decide) _ cfgC4_splits_eval

theorem claim_C5_amended_witness :
    ([splitC4_one, splitC4_two, splitC4_three].get ⟨0, by decide⟩).train_end <
      ([splitC4_one, splitC4_two, splitC4_three].get ⟨1, by decide⟩).train_end :=
  ((claim_C5_amended cfgC4 cfgC4_stride (by decide) 0 864000000000 (by decide) _
    cfgC4_splits_eval 0 (by decide)).1 rfl).1

theorem claim_C6_witness : splitExp_two.train_start = 0 :=
  ((claim_C6 cfgExp cfgExp_stride (by decide) rfl 0 259200000000 (by decide) _
    cfgExp_splits_eval).1 rfl).1 splitExp_two (by decide)

theorem claim_C7_witness :
    mkCoreTimeBasedSplit FrequencyUnit.days 4 3 0 none WindowType.rolling ModeType.forward =
      mkCoreTimeBasedSplit FrequencyUnit.days 4 3 0 (some 3) WindowType.rolling
        ModeType.forward :=
  (claim_C7 FrequencyUnit.days 4 3 0 WindowType.rolling ModeType.forward 0 1 (by decide)).1

theorem claim_C8_witness :
    ((∃ msg, cfgC4.splits_from_period cfgC4_stride 0 864000000000 = .error msg) ↔
      (864000000000 : Int) ≤ 0) ∧
    ((∃ msg, cfgC4.n_splits_of cfgC4_stride 0 864000000000 = .error msg) ↔
      (864000000000 : Int) ≤ 0) :=
  claim_C8 cfgC4 cfgC4_stride (by decide) 0 864000000000

theorem claim_C9_witness :
    List.length [splitC9_one, splitC9_two] ≤
      List.length [splitC4_one, splitC4_two, splitC4_three] :=
  (claim_C9 FrequencyUnit.days WindowType.rolling ModeType.forward 0 864000000000
    (by decide)).1 4 5 3 0 3 (by decide) (by decide) (by decide) cfgC4_stride cfgC9_stride
    _ _ cfgC4_splits_eval cfgC9_splits_eval

theorem claim_C10_witness :
    ∃ l, cfgC4.splits_from_period cfgC4_stride 0 864000000000 = .ok l ∧
      (l ≠ [] ↔ (0 : Int) + cfgC4.train_delta + cfgC4.gap_delta ≤ 864000000000) ∧
      cfgC4.n_splits_of cfgC4_stride 0 864000000000 = .ok l.length :=
  claim_C10 cfgC4 cfgC4_stride (by decide) rfl 0 864000000000 (by decide)

end Timebasedcv
